import Mathlib

/-!
Verification development for the `ariarpcc` command-line client
(`src/ariarpcc/__main__.py`).  The file shallowly embeds the three pieces of
the program with real logic:

* `Aria2RPC._call_rpc` — construction of the JSON-RPC payload (including the
  secret-token prepend, which in Python is an in-place `params.insert(0, ...)`
  on the caller's list) and classification of the response into a remote
  error, an HTTP-status error, or a success value;
* `AddDownload.start`'s inner `read_inp` — the line-oriented batch parser;
* `AddDownload.start`'s option normalisation (token splitting, bare-token
  default `"true"`, and the `follow-torrent -> "mem"` injection).

Python dicts are embedded as insertion-ordered association lists with unique
keys; Python's "current item" dict alias `ucur` is embedded as the key of the
entry it aliases (the aliased dict is created by `umap[v] = ucur = udef.copy()`
and that map slot is never reassigned afterwards, so the key determines the
aliased object).
-/

namespace AriaRpcc

/-- JSON-compatible values, as produced by `json.loads` / passed to
`requests.post(..., json=payload)`.  Numbers are restricted to integers,
which covers every number the program itself puts into or reads out of the
claim-relevant fields. -/
inductive JVal where
  | jNull : JVal
  | jBool : Bool → JVal
  | jNum : Int → JVal
  | jStr : String → JVal
  | jArr : List JVal → JVal
  | jObj : List (String × JVal) → JVal

/-- Python truthiness of a JSON value (`if error:`): `None`, `False`, `0`,
`""`, `[]` and the empty dict are falsy, everything else is truthy. -/
def truthy : JVal → Bool
  | .jNull => false
  | .jBool b => b
  | .jNum n => n != 0
  | .jStr s => s != ""
  | .jArr l => !l.isEmpty
  | .jObj l => !l.isEmpty

/-- Lookup in a dict embedded as an association list: `d.get(k)`, returning
`none` when the key is absent (Python returns `None`). -/
def dictGet {α : Type} : List (String × α) → String → Option α
  | [], _ => none
  | (k', v) :: rest, k => if k' == k then some v else dictGet rest k

/-- Assignment `d[k] = v` on a dict embedded as an association list: an
existing key keeps its position and gets the new value, a new key is
appended at the end (CPython insertion-order semantics). -/
def dictSet {α : Type} : List (String × α) → String → α → List (String × α)
  | [], k, v => [(k, v)]
  | (k', v') :: rest, k, v =>
    if k' == k then (k', v) :: rest else (k', v') :: dictSet rest k v

/-- Key membership `k in d` on an embedded dict. -/
def hasKey {α : Type} (d : List (String × α)) (k : String) : Bool :=
  (dictGet d k).isSome

/-! Python string primitives used by the program, on the character list
underlying a `String`.  Python's `str.rstrip()` / `str.lstrip()` with no
argument strip the ASCII whitespace characters (space, tab, newline,
carriage return, vertical tab, form feed); the program only ever meets
text lines, for which this set is exact. -/

/-- Characters stripped by Python's argumentless `strip` family. -/
def isPySpace (c : Char) : Bool :=
  c == ' ' || c == '\t' || c == '\n' || c == '\r' || c == '\x0b' || c == '\x0c'

/-- Python `s.rstrip()`. -/
def pyRstrip (s : String) : String :=
  String.mk ((s.data.reverse.dropWhile isPySpace).reverse)

/-- Python `s.lstrip()`. -/
def pyLstrip (s : String) : String :=
  String.mk (s.data.dropWhile isPySpace)

/-- Python `s.startswith(c)` for a single-character prefix. -/
def startsWith1 (s : String) (c : Char) : Bool :=
  match s.data with
  | [] => false
  | c' :: _ => c' == c

/-- Python `s.endswith(suffix)`. -/
def pyEndsWith (s suffix : String) : Bool :=
  suffix.data.isSuffixOf s.data

/-- Split a character list at the first occurrence of `c`: `some (before,
after)` when `c` occurs, `none` otherwise. -/
def splitAtFirst (c : Char) : List Char → Option (List Char × List Char)
  | [] => none
  | x :: xs =>
    if x == c then some ([], xs)
    else
      match splitAtFirst c xs with
      | none => none
      | some (a, b) => some (x :: a, b)

/-- Python `s.partition("=")`, returned as `(head, separatorFound, tail)`:
`(s, false, "")` when `"="` does not occur, otherwise the parts before and
after the first `"="` with the flag `true`. -/
def pyPartitionEq (s : String) : String × Bool × String :=
  match splitAtFirst '=' s.data with
  | none => (s, false, "")
  | some (a, b) => (String.mk a, true, String.mk b)

/-! RPC payload construction, from `Aria2RPC._call_rpc` (lines 23–36). -/

/-- The JSON-RPC request body assembled by `_call_rpc`. -/
structure RpcPayload where
  jsonrpc : String
  id : String
  method : String
  params : List JVal

/-- Truthiness of the configured `--rpc-secret` flag (`if self.rpc_secret:`
on an `Optional[str]`): `None` and the empty string are falsy. -/
def hasSecret : Option String → Bool
  | none => false
  | some s => !(s == "")

/-- The parameter list after the secret handling of `_call_rpc`:
`params.insert(0, f"token:{self.rpc_secret}")` executed when the secret is
truthy.  Because `insert` mutates the list object in place, this is both the
list transmitted in the payload and the list the caller's own reference sees
after the call. -/
def rpcParams (secret : Option String) (ps : List JVal) : List JVal :=
  match secret with
  | none => ps
  | some s => if s == "" then ps else .jStr ("token:" ++ s) :: ps

/-- The caller's parameter list as observed after `_call_rpc` returns.
`list.insert(0, x)` mutates the caller-supplied list object itself, so the
caller observes exactly the transmitted parameter list. -/
def callerParamsAfter (secret : Option String) (ps : List JVal) : List JVal :=
  rpcParams secret ps

/-- The payload built by `_call_rpc` for method `method`: the caller either
passes a parameter list or relies on the `params=None` default, which is
replaced by a fresh empty list. -/
def callPayload (secret : Option String) (method : String)
    (paramsArg : Option (List JVal)) : RpcPayload :=
  let params := match paramsArg with | none => [] | some p => p
  { jsonrpc := "2.0"
    id := "1"
    method := "aria2." ++ method
    params := rpcParams secret params }

/-! Response classification, from `_call_rpc` (lines 42–51).  The body has
already been parsed (`json: dict = response.json()`); the embedding starts
from the parsed dict and the HTTP status code. -/

/-- Terminal outcome of one `_call_rpc` invocation after the body parsed. -/
inductive CallOutcome where
  | remoteError : String → CallOutcome
  | httpError : Nat → CallOutcome
  | ok : List (String × JVal) → CallOutcome

/-- Python `str()` rendering of the values interpolated into the
`f"RPC error {code}: {message}"` message.  The program only ever
interpolates the scalar cases; container values are rendered structurally
(Python's escaping of quotes inside `repr` is not reproduced, and no claim
exercises it). -/
def pyStr : JVal → String
  | .jNull => "None"
  | .jBool true => "True"
  | .jBool false => "False"
  | .jNum n => toString n
  | .jStr s => s
  | .jArr _ => "[...]"
  | .jObj _ => "\x7b...\x7d"

/-- Field access `error.get(k)` on the error value, `None` when absent.
A truthy non-dict error value would raise `AttributeError` in Python; no
claim (and no aria2 response) exercises that corner. -/
def errGet (e : JVal) (k : String) : JVal :=
  match e with
  | .jObj l => (dictGet l k).getD .jNull
  | _ => .jNull

/-- Status check `response.raise_for_status()` followed by `return json`:
`requests` raises `HTTPError` exactly for status codes 400–599. -/
def callStatusCheck (status : Nat) (body : List (String × JVal)) : CallOutcome :=
  if 400 ≤ status ∧ status < 600 then .httpError status else .ok body

/-- Outcome classification of `_call_rpc`: `error = json.get("error")`,
`if error:` raises `SystemExit(f"RPC error {error.get('code')}:
{error.get('message')}")`, and only otherwise is `raise_for_status()`
consulted before the body is returned. -/
def callOutcome (status : Nat) (body : List (String × JVal)) : CallOutcome :=
  match dictGet body "error" with
  | some e =>
    if truthy e then
      .remoteError ("RPC error " ++ pyStr (errGet e "code") ++ ": "
        ++ pyStr (errGet e "message"))
    else callStatusCheck status body
  | none => callStatusCheck status body

/-! Batch parser, from the inner function `read_inp` of `AddDownload.start`
(lines 63–87).  The mutable Python state is `umap` (dict identifier →
options dict), `ucur` (alias of the most recently inserted options dict, or
`None`) and `udef` (the pending defaults dict); `ucur` is embedded as the
key of the `umap` entry whose dict it aliases. -/

/-- Parser state of `read_inp`. -/
structure PState where
  umap : List (String × List (String × String))
  ucur : Option String
  udef : List (String × String)
  deriving Repr, DecidableEq

/-- Initial state: `umap = {}`, `ucur = None`, `udef = {}`. -/
def initState : PState := ⟨[], none, []⟩

/-- Mutation `ucur[name] = value` of the options dict aliased by `ucur`,
performed through the `umap` entry it aliases. -/
def updItem : List (String × List (String × String)) → String → String → String
    → List (String × List (String × String))
  | [], _, _, _ => []
  | (k', opts) :: rest, k, name, value =>
    if k' == k then (k', dictSet opts name value) :: rest
    else (k', opts) :: updItem rest k name value

/-- Body of the option-line branch: `name, _, value = v.lstrip().partition("=")`
followed by `if value and name:` and the write into `udef` or `ucur`. -/
def optLineStep (st : PState) (stripped : String) : PState :=
  match pyPartitionEq stripped with
  | (name, _, value) =>
    if !value.isEmpty && !name.isEmpty then
      match st.ucur with
      | none => { st with udef := dictSet st.udef name value }
      | some k => { st with umap := updItem st.umap k name value }
    else st

/-- One iteration of the `for v in inp:` loop of `read_inp`: rstrip the
line, skip blank and `#` lines, treat lines starting with a space or tab as
option lines, and otherwise insert the line as a new identifier with a copy
of the defaults unless it is already present. -/
def readLine (st : PState) (line : String) : PState :=
  let v := pyRstrip line
  if v.isEmpty || startsWith1 v '#' then st
  else if startsWith1 v ' ' || startsWith1 v '\t' then
    optLineStep st (pyLstrip v)
  else if hasKey st.umap v then st
  else { umap := st.umap ++ [(v, st.udef)], ucur := some v, udef := st.udef }

/-- Whole run of `read_inp` over the lines of the input stream, returning
the accumulated `umap`. -/
def read_inp (lines : List String) : List (String × List (String × String)) :=
  (lines.foldl readLine initState).umap

/-- Line classified by `readLine` as blank or comment (first branch). -/
def isBlankOrComment (line : String) : Bool :=
  (pyRstrip line).isEmpty || startsWith1 (pyRstrip line) '#'

/-- Line classified by `readLine` as an option line (second branch). -/
def isOptLine (line : String) : Bool :=
  !isBlankOrComment line
    && (startsWith1 (pyRstrip line) ' ' || startsWith1 (pyRstrip line) '\t')

/-- Line classified by `readLine` as an identifier line (third branch). -/
def isIdentLine (line : String) : Bool :=
  !isBlankOrComment line
    && !(startsWith1 (pyRstrip line) ' ' || startsWith1 (pyRstrip line) '\t')

/-- Option line whose stripped content fails the `if value and name:` test:
no `=`, empty name, or empty value. -/
def isMalformedOpt (line : String) : Bool :=
  match pyPartitionEq (pyLstrip (pyRstrip line)) with
  | (name, _, value) => value.isEmpty || name.isEmpty

/-! Option normalisation, from `AddDownload.start` (lines 89–96). -/

/-- Normalisation of one `-s` token: `x.partition("=")` gives `(y0, y1, y2)`
and the pair is `(y0, y2)` when the separator was found, else `(y0, "true")`. -/
def tokenPair (x : String) : String × String :=
  match pyPartitionEq x with
  | (name, found, value) => if found then (name, value) else (x, "true")

/-- Construction `dict([...])` from the token pairs: sequential insertion,
later pairs with an equal name overwriting earlier ones. -/
def dictFromPairs (ps : List (String × String)) : List (String × String) :=
  ps.foldl (fun d p => dictSet d p.1 p.2) []

/-- Truthiness of `options.get(k)` on a string-valued dict: an absent key
(`None`) and an empty value are falsy. -/
def truthyGet (d : List (String × String)) (k : String) : Bool :=
  match dictGet d k with
  | none => false
  | some v => !(v == "")

/-- Option set assembled by `AddDownload.start` before the RPC call: the
`-s` tokens, then `out` from `--output` and `dir` from `--dir` when truthy,
then the `follow-torrent -> "mem"` injection when `options.get` is falsy
and the URI has a `.torrent` or `.metalink` suffix. -/
def buildOptions (optTokens : List String) (output dir : Option String)
    (uri : String) : List (String × String) :=
  let options := dictFromPairs (optTokens.map tokenPair)
  let options := match output with
    | some o => if o == "" then options else dictSet options "out" o
    | none => options
  let options := match dir with
    | some d => if d == "" then options else dictSet options "dir" d
    | none => options
  if !truthyGet options "follow-torrent" then
    if pyEndsWith uri ".torrent" || pyEndsWith uri ".metalink" then
      dictSet options "follow-torrent" "mem"
    else options
  else options

/-! Theorems. -/

/-- C1: every `_call_rpc` with method name `m` and caller-supplied parameter
sequence `ps` builds the body `jsonrpc = "2.0"`, `id = "1"`,
`method = "aria2." ++ m`, and `params` equal to `ps` when no (truthy) shared
secret is configured, and to `"token:" ++ s` followed by `ps` in original
order when the secret `s` is configured. -/
theorem call_payload_shape (m : String) (ps : List JVal) (secret : Option String) :
    (callPayload secret m (some ps)).jsonrpc = "2.0" ∧
    (callPayload secret m (some ps)).id = "1" ∧
    (callPayload secret m (some ps)).method = "aria2." ++ m ∧
    (hasSecret secret = false → (callPayload secret m (some ps)).params = ps) ∧
    (∀ s : String, secret = some s → hasSecret secret = true →
      (callPayload secret m (some ps)).params = .jStr ("token:" ++ s) :: ps) := by
  refine ⟨rfl, rfl, rfl, ?_, ?_⟩
  · intro h
    cases secret with
    | none => rfl
    | some s =>
      simp only [hasSecret, Bool.not_eq_false'] at h
      simp [callPayload, rpcParams, h]
  · intro s hs ht
    subst hs
    simp only [hasSecret, Bool.not_eq_true'] at ht
    simp [callPayload, rpcParams, ht]

/-- Witness for C1 at secret `"sec"`, method `"addUri"`, params `[jStr "u"]`. -/
theorem call_payload_shape_witness :
    (callPayload (some "sec") "addUri" (some [.jStr "u"])).method = "aria2." ++ "addUri" ∧
    (callPayload (some "sec") "addUri" (some [.jStr "u"])).params
      = .jStr ("token:" ++ "sec") :: [.jStr "u"] :=
  ⟨(call_payload_shape "addUri" [.jStr "u"] (some "sec")).2.2.1,
   (call_payload_shape "addUri" [.jStr "u"] (some "sec")).2.2.2.2 "sec" rfl (by decide)⟩

/-- C2: a parsed body whose `error` field is the object `{code := c,
message := m}` makes the call fail as the remote error `"RPC error c: m"`
for every HTTP status, so an RPC-level error always takes precedence over a
status-code failure. -/
theorem rpc_error_precedence (status : Nat) (body : List (String × JVal))
    (c : Int) (m : String)
    (h : dictGet body "error" = some (.jObj [("code", .jNum c), ("message", .jStr m)])) :
    callOutcome status body
      = .remoteError ("RPC error " ++ toString c ++ ": " ++ m) := by
  unfold callOutcome
  rw [h]
  rfl

/-- Witness for C2: error code 1 and message `"m"` win over HTTP status 500. -/
theorem rpc_error_precedence_witness :
    callOutcome 500 [("error", .jObj [("code", .jNum 1), ("message", .jStr "m")])]
      = .remoteError ("RPC error " ++ toString (1 : Int) ++ ": " ++ "m") :=
  rpc_error_precedence 500 _ 1 "m" rfl

/-- C3 counterexample: with secret `"s"` configured and the caller's list
empty, the caller-visible list after the call is not the unchanged `[]` —
`params.insert(0, ...)` mutated the caller's own list object. -/
theorem params_inplace_insert_cex :
    ¬ (callerParamsAfter (some "s") ([] : List JVal) = []) :=
  fun h => List.cons_ne_nil _ _ h

/-- C3 amended: with a truthy secret `s` the token is prepended exactly once
(the transmitted list is exactly `"token:" ++ s` consed onto `ps`), but the
prepend happens in place on the caller-supplied list, so after the call the
caller's list also has the token as its first element. -/
theorem params_inplace_insert (s : String) (ps : List JVal) (h : s ≠ "") :
    rpcParams (some s) ps = .jStr ("token:" ++ s) :: ps ∧
    callerParamsAfter (some s) ps = .jStr ("token:" ++ s) :: ps := by
  have hb : (s == "") = false := by simpa using h
  exact ⟨by simp [rpcParams, hb], by simp [callerParamsAfter, rpcParams, hb]⟩

/-- Witness for the amended C3 at secret `"s"` and empty caller list. -/
theorem params_inplace_insert_witness :
    rpcParams (some "s") [] = [JVal.jStr ("token:" ++ "s")] ∧
    callerParamsAfter (some "s") [] = [JVal.jStr ("token:" ++ "s")] :=
  params_inplace_insert "s" [] (by decide)

/-- Writing through the `ucur` alias changes no other entry of `umap`. -/
lemma dictGet_updItem_ne (mp : List (String × List (String × String)))
    (k k2 name value : String) (h : k2 ≠ k) :
    dictGet (updItem mp k name value) k2 = dictGet mp k2 := by
  induction mp with
  | nil => rfl
  | cons p rest ih =>
    obtain ⟨k1, opts⟩ := p
    by_cases hk : (k1 == k) = true
    · have hk2 : (k1 == k2) = false := by
        have he : k1 = k := by simpa using hk
        subst he
        simp [Ne.symm h]
      simp [updItem, dictGet, hk, hk2]
    · simp only [Bool.not_eq_true] at hk
      by_cases hk2 : (k1 == k2) = true <;>
        simp [updItem, dictGet, hk, hk2, ih]

/-- Blank and comment lines leave the parser state untouched. -/
lemma readLine_blank (st : PState) (line : String)
    (h : isBlankOrComment line = true) : readLine st line = st := by
  have h' : ((pyRstrip line).isEmpty || startsWith1 (pyRstrip line) '#') = true := h
  simp [readLine, h']

/-- A run over blank and comment lines only ends in the state it started in. -/
lemma foldl_readLine_blank (lines : List String) (st : PState)
    (h : ∀ l ∈ lines, isBlankOrComment l = true) :
    lines.foldl readLine st = st := by
  induction lines generalizing st with
  | nil => rfl
  | cons l rest ih =>
    rw [List.foldl_cons, readLine_blank st l (h l (by simp))]
    exact ih st fun x hx => h x (by simp [hx])

/-- An identifier line whose rstripped text is already a key of `umap` runs
the `elif v not in umap` test, fails it, and changes nothing. -/
lemma readLine_dup (st : PState) (line : String)
    (hid : isIdentLine line = true)
    (hmem : hasKey st.umap (pyRstrip line) = true) :
    readLine st line = st := by
  simp only [isIdentLine, Bool.and_eq_true, Bool.not_eq_true'] at hid
  obtain ⟨h1, h2⟩ := hid
  have h1' : ((pyRstrip line).isEmpty || startsWith1 (pyRstrip line) '#') = false := h1
  simp [readLine, h1', h2, hmem]

/-- C4: parsing the default line `" proxy=1.2.3.4"` followed by identifier
`"http://a"` yields exactly the map sending `http://a` to
`{proxy := "1.2.3.4"}`; and because each new identifier receives a copy of
the pending defaults, an option line recorded while an item is open never
changes the pending defaults or any other item's option set. -/
theorem defaults_copied_per_item :
    read_inp [" proxy=1.2.3.4", "http://a"]
      = [("http://a", [("proxy", "1.2.3.4")])] ∧
    (∀ (st : PState) (line k : String), isOptLine line = true →
      st.ucur = some k →
      (readLine st line).udef = st.udef ∧
        ∀ k2, k2 ≠ k →
          dictGet (readLine st line).umap k2 = dictGet st.umap k2) := by
  refine ⟨by decide, ?_⟩
  intro st line k hopt hcur
  simp only [isOptLine, Bool.and_eq_true, Bool.not_eq_true'] at hopt
  obtain ⟨h1, h2⟩ := hopt
  have h1' : ((pyRstrip line).isEmpty || startsWith1 (pyRstrip line) '#') = false := h1
  rcases hP : pyPartitionEq (pyLstrip (pyRstrip line)) with ⟨name, found, value⟩
  have hred : readLine st line = optLineStep st (pyLstrip (pyRstrip line)) := by
    simp [readLine, h1', h2]
  rw [hred]
  by_cases hv : (!value.isEmpty && !name.isEmpty) = true
  · have hstep : optLineStep st (pyLstrip (pyRstrip line))
        = { st with umap := updItem st.umap k name value } := by
      simp [optLineStep, hP, hv, hcur]
    rw [hstep]
    exact ⟨rfl, fun k2 hk2 => dictGet_updItem_ne st.umap k k2 name value hk2⟩
  · have hstep : optLineStep st (pyLstrip (pyRstrip line)) = st := by
      simp only [Bool.not_eq_true] at hv
      simp [optLineStep, hP, hv]
    rw [hstep]
    exact ⟨rfl, fun _ _ => rfl⟩

/-- Witness for C4: an option line ` x=1` written into open item `"a"`
leaves the defaults and the other item `"b"` untouched. -/
theorem defaults_copied_per_item_witness :
    (readLine ⟨[("a", []), ("b", [])], some "a", []⟩ " x=1").udef = [] ∧
    dictGet (readLine ⟨[("a", []), ("b", [])], some "a", []⟩ " x=1").umap "b"
      = dictGet [("a", ([] : List (String × String))), ("b", [])] "b" := by
  have h := defaults_copied_per_item.2 ⟨[("a", []), ("b", [])], some "a", []⟩
    " x=1" "a" (by decide) rfl
  exact ⟨h.1, h.2 "b" (by decide)⟩

/-- C5 counterexample: for the stream `http://a`, `" x=1"`, `http://b` the
claim is false — item `http://a`'s option set does contain `x` and item
`http://b`'s does not. -/
theorem later_defaults_cex :
    ¬ ((dictGet (read_inp ["http://a", " x=1", "http://b"]) "http://a").map
          (fun o => hasKey o "x") = some false ∧
       (dictGet (read_inp ["http://a", " x=1", "http://b"]) "http://b").map
          (fun o => hasKey o "x") = some true) := by decide

/-- C5 amended: in the stream `http://a`, `" x=1"`, `http://b` the indented
line `x=1` is recorded as an override of the currently open item
`http://a`, not as a new default, so `http://a`'s parsed option set
contains `x` and `http://b`'s does not. -/
theorem later_option_line_targets_open_item :
    (dictGet (read_inp ["http://a", " x=1", "http://b"]) "http://a").map
        (fun o => hasKey o "x") = some true ∧
    (dictGet (read_inp ["http://a", " x=1", "http://b"]) "http://b").map
        (fun o => hasKey o "x") = some false := by decide

/-- C6: an identifier line whose exact rstripped string is already a key of
the result map leaves the whole parser state unchanged — no second entry,
no reordering, and the first occurrence's option set exactly as it was. -/
theorem duplicate_ident_noop (st : PState) (line : String)
    (hid : isIdentLine line = true)
    (hmem : hasKey st.umap (pyRstrip line) = true) :
    readLine st line = st :=
  readLine_dup st line hid hmem

/-- Witness for C6: the duplicate line `"http://a"` changes nothing. -/
theorem duplicate_ident_noop_witness :
    readLine ⟨[("http://a", [("k", "v")])], some "http://a", []⟩ "http://a"
      = ⟨[("http://a", [("k", "v")])], some "http://a", []⟩ :=
  duplicate_ident_noop _ _ (by decide) (by decide)

/-- C7: the parser is total and lenient — an option line whose stripped
content has no `=` or an empty name or value leaves the state unchanged and
so contributes to no option set, and a stream of blank and comment lines
only parses to the empty map. -/
theorem parser_lenient :
    (∀ (st : PState) (line : String), isOptLine line = true →
      isMalformedOpt line = true → readLine st line = st) ∧
    (∀ lines : List String, (∀ l ∈ lines, isBlankOrComment l = true) →
      read_inp lines = []) := by
  constructor
  · intro st line hopt hmal
    simp only [isOptLine, Bool.and_eq_true, Bool.not_eq_true'] at hopt
    obtain ⟨h1, h2⟩ := hopt
    have h1' : ((pyRstrip line).isEmpty || startsWith1 (pyRstrip line) '#') = false := h1
    simp only [readLine, h1', h2, Bool.false_eq_true, if_false, if_true]
    rcases hP : pyPartitionEq (pyLstrip (pyRstrip line)) with ⟨name, found, value⟩
    simp only [isMalformedOpt, hP] at hmal
    have hv : (!value.isEmpty && !name.isEmpty) = false := by
      cases hve : value.isEmpty <;> cases hne : name.isEmpty <;> simp_all
    simp [optLineStep, hP, hv]
  · intro lines h
    show (lines.foldl readLine initState).umap = []
    rw [foldl_readLine_blank lines initState h]
    rfl

/-- Witness for C7: the malformed option line `" noequals"` is a no-op and
the stream of a comment plus an empty line parses to the empty map. -/
theorem parser_lenient_witness :
    readLine initState " noequals" = initState ∧ read_inp ["# c", ""] = [] :=
  ⟨parser_lenient.1 initState " noequals" (by decide) (by decide),
   parser_lenient.2 ["# c", ""] (by decide)⟩

/-- C9: a duplicate identifier line does not repoint `ucur`, so option
lines after it keep landing in the most recently newly declared item; in
the stream `http://a`, `http://b`, `http://a`, `" x=1"` the final option
line is recorded into `http://b`, not into `http://a`. -/
theorem duplicate_ident_keeps_cur :
    (∀ (st : PState) (line : String), isIdentLine line = true →
      hasKey st.umap (pyRstrip line) = true →
      (readLine st line).ucur = st.ucur) ∧
    read_inp ["http://a", "http://b", "http://a", " x=1"]
      = [("http://a", []), ("http://b", [("x", "1")])] := by
  refine ⟨?_, by decide⟩
  intro st line h1 h2
  rw [readLine_dup st line h1 h2]

/-- Witness for C9: after the duplicate line the current item is still
`http://a`. -/
theorem duplicate_ident_keeps_cur_witness :
    (readLine ⟨[("http://a", [])], some "http://a", []⟩ "http://a").ucur
      = some "http://a" :=
  duplicate_ident_keeps_cur.1 _ _ (by decide) (by decide)

/-- Splitting a list at the first `c` finds the marked occurrence when the
prefix is free of `c`. -/
lemma splitAtFirst_marked (c : Char) (l r : List Char) (h : c ∉ l) :
    splitAtFirst c (l ++ c :: r) = some (l, r) := by
  induction l with
  | nil => simp [splitAtFirst]
  | cons x xs ih =>
    have hx : (x == c) = false := by
      simp only [List.mem_cons, not_or] at h
      simpa using fun he => h.1 he.symm
    have hxs : c ∉ xs := by
      simp only [List.mem_cons, not_or] at h
      exact h.2
    simp [splitAtFirst, hx, ih hxs]

/-- Splitting at a character that does not occur yields `none`. -/
lemma splitAtFirst_absent (c : Char) (l : List Char) (h : c ∉ l) :
    splitAtFirst c l = none := by
  induction l with
  | nil => rfl
  | cons x xs ih =>
    have hx : (x == c) = false := by
      simp only [List.mem_cons, not_or] at h
      simpa using fun he => h.1 he.symm
    have hxs : c ∉ xs := by
      simp only [List.mem_cons, not_or] at h
      exact h.2
    simp [splitAtFirst, hx, ih hxs]

/-- Character data of the concatenation `n ++ "=" ++ v`. -/
lemma data_append_eq (n v : String) :
    (n ++ "=" ++ v).data = n.data ++ '=' :: v.data := by
  obtain ⟨ln⟩ := n
  obtain ⟨lv⟩ := v
  show (ln ++ ['=']) ++ lv = ln ++ '=' :: lv
  simp

/-- C8: a `-s` token `n=v` whose name part holds no `=` normalizes to the
pair `(n, v)` (split on the first `=`), a bare token with no `=` normalizes
to the pair `(token, "true")`, a `.torrent` or `.metalink` URI with no
explicit `follow-torrent` token gets `follow-torrent -> "mem"` injected,
and an explicit `follow-torrent=mem2` token is preserved unchanged. -/
theorem option_token_normalization :
    (∀ n v : String, '=' ∉ n.data → tokenPair (n ++ "=" ++ v) = (n, v)) ∧
    (∀ x : String, '=' ∉ x.data → tokenPair x = (x, "true")) ∧
    dictGet (buildOptions [] none none "foo.torrent") "follow-torrent" = some "mem" ∧
    dictGet (buildOptions [] none none "a.metalink") "follow-torrent" = some "mem" ∧
    dictGet (buildOptions ["follow-torrent=mem2"] none none "foo.torrent")
      "follow-torrent" = some "mem2" ∧
    dictGet (buildOptions ["seed"] none none "u") "seed" = some "true" := by
  refine ⟨?_, ?_, by decide, by decide, by decide, by decide⟩
  · intro n v h
    unfold tokenPair pyPartitionEq
    rw [data_append_eq, splitAtFirst_marked '=' n.data v.data h]
    rfl
  · intro x h
    unfold tokenPair pyPartitionEq
    rw [splitAtFirst_absent '=' x.data h]
    rfl

/-- Witness for C8: the token `proxy=1` splits into `(proxy, 1)` and the
bare token `seed` becomes `(seed, "true")`. -/
theorem option_token_normalization_witness :
    tokenPair ("proxy" ++ "=" ++ "1") = ("proxy", "1") ∧
    tokenPair "seed" = ("seed", "true") :=
  ⟨option_token_normalization.1 "proxy" "1" (by decide),
   option_token_normalization.2.1 "seed" (by decide)⟩

/-- C10: presence of `follow-torrent` is tested by truthiness of
`options.get`, not by key presence — for every URI with a `.torrent` or
`.metalink` suffix, the explicit empty-valued token `follow-torrent=` is
treated as absent and overwritten with `follow-torrent -> "mem"`. -/
theorem follow_torrent_truthiness (uri : String)
    (h : (pyEndsWith uri ".torrent" || pyEndsWith uri ".metalink") = true) :
    dictGet (buildOptions ["follow-torrent="] none none uri) "follow-torrent"
      = some "mem" := by
  rw [show buildOptions ["follow-torrent="] none none uri
      = if pyEndsWith uri ".torrent" || pyEndsWith uri ".metalink"
        then [("follow-torrent", "mem")] else [("follow-torrent", "")] from rfl]
  rw [h]
  rfl

/-- Witness for C10 at the URI `foo.torrent`. -/
theorem follow_torrent_truthiness_witness :
    dictGet (buildOptions ["follow-torrent="] none none "foo.torrent")
      "follow-torrent" = some "mem" :=
  follow_torrent_truthiness "foo.torrent" (by decide)

end AriaRpcc
